import Mathlib

/-!
Shallow embedding of `service.go` from the go-micro service orchestrator
(`package micro`): lifecycle `Init` / `Start` / `Stop` / `Run`, hook chains,
middleware composition in `newService`, and `registerAuthAccount`.

Collaborator internals (server, auth provider, registry, store, ...) are out
of scope; they are modelled at their interface boundary by outcome values
(`Option Err` results) supplied as parameters, exactly where the Go code
consumes their return values.
-/

namespace GoMicro

/-- An opaque error value, standing for a Go `error`. -/
structure Err where
  code : Nat
deriving DecidableEq, Repr

/-- A lifecycle hook, modelled by an identifier together with the result the
hook produces when invoked (`none` = success, `some e` = the Go `error` it
returns). The Go type is `func() error`. -/
abbrev Hook := Nat × Option Err

/-- Fail-fast execution of a hook list, as in the loops of `Start`
(service.go lines 144-148 and 154-158): hooks run in order; the first hook
returning an error stops the loop. Returns the ids of the hooks that were
invoked (in order) and the error of the first failing hook, if any. -/
def runHooksFF : List Hook → List Nat × Option Err
  | [] => ([], none)
  | h :: rest =>
    match h.2 with
    | some e => ([h.1], some e)
    | none =>
      let r := runHooksFF rest
      (h.1 :: r.1, r.2)

/-- Best-effort execution of a hook list, as in the loops of `Stop`
(service.go lines 166-170 and 176-180): every hook runs; a failure is
recorded into the accumulator `gerr` (last failure wins) but does not stop
the loop. Returns the ids of the hooks invoked and the final `gerr`. -/
def runHooksBE (hs : List Hook) (gerr : Option Err) : List Nat × Option Err :=
  match hs with
  | [] => ([], gerr)
  | h :: rest =>
    let g :=
      match h.2 with
      | some e => some e
      | none => gerr
    let r := runHooksBE rest g
    (h.1 :: r.1, r.2)

/-- The last error produced by a hook list, threaded through an accumulator:
the `gerr` variable of `Stop` written as a fold. -/
def lastError (hs : List Hook) (gerr : Option Err) : Option Err :=
  hs.foldl
    (fun g h =>
      match h.2 with
      | some e => some e
      | none => g)
    gerr

/-- Observable outcome of `service.Start` (service.go lines 143-161). -/
structure StartOutcome where
  /-- ids of the BeforeStart hooks that were invoked, in order. -/
  beforeRan : List Nat
  /-- whether `s.opts.Server.Start()` (the accept/listen call) was invoked. -/
  serverStartInvoked : Bool
  /-- ids of the AfterStart hooks that were invoked, in order. -/
  afterRan : List Nat
  /-- the error `Start` returns (`none` = nil). -/
  result : Option Err
deriving DecidableEq, Repr

/-- `service.Start` (service.go lines 143-161): run BeforeStart hooks
fail-fast; on failure return that error (server accept not invoked, no
AfterStart hook runs). Otherwise invoke `Server.Start`; on failure return
that error (no AfterStart hook runs). Otherwise run AfterStart hooks
fail-fast and return the result. `srv` is the outcome of the server
collaborator's `Start()` call. -/
def Start (beforeStart afterStart : List Hook) (srv : Option Err) : StartOutcome :=
  let b := runHooksFF beforeStart
  match b.2 with
  | some e => ⟨b.1, false, [], some e⟩
  | none =>
    match srv with
    | some e => ⟨b.1, true, [], some e⟩
    | none =>
      let a := runHooksFF afterStart
      ⟨b.1, true, a.1, a.2⟩

/-- Observable outcome of `service.Stop` (service.go lines 163-183). -/
structure StopOutcome where
  /-- ids of the BeforeStop hooks that were invoked, in order. -/
  beforeRan : List Nat
  /-- whether `s.opts.Server.Stop()` (transport shutdown) was invoked. -/
  serverStopInvoked : Bool
  /-- ids of the AfterStop hooks that were invoked, in order. -/
  afterRan : List Nat
  /-- the error `Stop` returns (`none` = nil). -/
  result : Option Err
deriving DecidableEq, Repr

/-- `service.Stop` (service.go lines 163-183): run every BeforeStop hook,
recording the last failure in `gerr`; then invoke `Server.Stop`, and if it
fails return that error immediately (AfterStop hooks skipped, `gerr`
discarded); otherwise run every AfterStop hook (still recording the last
failure) and return `gerr`. `srv` is the outcome of the server
collaborator's `Stop()` call. -/
def Stop (beforeStop afterStop : List Hook) (srv : Option Err) : StopOutcome :=
  let b := runHooksBE beforeStop none
  match srv with
  | some e => ⟨b.1, true, [], some e⟩
  | none =>
    let a := runHooksBE afterStop b.2
    ⟨b.1, true, a.1, a.2⟩

/-! ### Hook-runner lemmas -/

theorem runHooksFF_clean (hs : List Hook) (h : ∀ x ∈ hs, x.2 = none) :
    runHooksFF hs = (hs.map Prod.fst, none) := by
  induction hs with
  | nil => rfl
  | cons a rest ih =>
    have ha : a.2 = none := h a (List.mem_cons_self a rest)
    have hrest : ∀ x ∈ rest, x.2 = none := fun x hx => h x (List.mem_cons_of_mem a hx)
    simp [runHooksFF, ha, ih hrest]

theorem runHooksFF_firstFail (pre post : List Hook) (a : Nat) (e : Err)
    (hpre : ∀ x ∈ pre, x.2 = none) :
    runHooksFF (pre ++ (a, some e) :: post) = (pre.map Prod.fst ++ [a], some e) := by
  induction pre with
  | nil => simp [runHooksFF]
  | cons p rest ih =>
    have hp : p.2 = none := hpre p (List.mem_cons_self p rest)
    have hrest : ∀ x ∈ rest, x.2 = none := fun x hx => hpre x (List.mem_cons_of_mem p hx)
    simp [runHooksFF, hp, ih hrest]

theorem runHooksBE_spec (hs : List Hook) (g : Option Err) :
    runHooksBE hs g = (hs.map Prod.fst, lastError hs g) := by
  induction hs generalizing g with
  | nil => rfl
  | cons a rest ih => simp [runHooksBE, lastError, ih]

/-! ### `Init` and the one-time gate (`s.once.Do`) -/

/-- The slice of the mutable `Options` of the service that `Init`'s one-time
body observably touches (service.go lines 94-123). Collaborator internals
stay out of scope; the cross-wiring calls are recorded as booleans on the
options ("this collaborator has been handed the outbound client"). -/
structure Options where
  /-- `s.opts.Cmd.App().Name`. -/
  appName : String
  /-- `s.Server().Options().Name`. -/
  serverName : String
  /-- the table the store collaborator was bound to (`store.Table(name)`). -/
  storeTable : Option String
  /-- auth collaborator handed the outbound client (`auth.WithClient`). -/
  authWired : Bool
  /-- registry collaborator handed the outbound client. -/
  registryWired : Bool
  /-- runtime collaborator handed the outbound client. -/
  runtimeWired : Bool
  /-- store collaborator handed the outbound client (`store.WithClient`). -/
  storeWired : Bool
deriving DecidableEq, Repr

/-- A functional option, the Go `Option = func(*Options)` applied by
`o(&s.opts)` (service.go lines 71-73). -/
abbrev Opt := Options → Options

/-- Execution counters for the steps of `Init`'s one-time body: how many
times each side-effecting step has run in this process. -/
structure Effects where
  /-- runs of the plugin-loading loop (service.go lines 77-92). -/
  pluginSteps : Nat
  /-- runs of the app-name defaulting step (lines 95-97). -/
  nameDefaultSteps : Nat
  /-- runs of `s.opts.Cmd.Init(...)`, the command/flag parse (lines 100-113). -/
  flagParses : Nat
  /-- runs of `s.opts.Store.Init(store.Table(name))` (line 117). -/
  storeTableBinds : Nat
  /-- runs of `s.opts.Auth.Init(auth.WithClient(...))` (line 120). -/
  authWires : Nat
  /-- runs of `s.opts.Registry.Init(srvRegistry.WithClient(...))` (line 121). -/
  registryWires : Nat
  /-- runs of `s.opts.Runtime.Init(runtime.WithClient(...))` (line 122). -/
  runtimeWires : Nat
  /-- runs of `s.opts.Store.Init(store.WithClient(...))` (line 123). -/
  storeWires : Nat
deriving DecidableEq, Repr

/-- All counters zero: no `Init` body has run yet. -/
def Effects.zero : Effects := ⟨0, 0, 0, 0, 0, 0, 0, 0⟩

/-- Every step has run exactly once. -/
def Effects.one : Effects := ⟨1, 1, 1, 1, 1, 1, 1, 1⟩

/-- Increment every counter: one full run of the gated body. -/
def Effects.bump (e : Effects) : Effects :=
  ⟨e.pluginSteps + 1, e.nameDefaultSteps + 1, e.flagParses + 1, e.storeTableBinds + 1,
    e.authWires + 1, e.registryWires + 1, e.runtimeWires + 1, e.storeWires + 1⟩

/-- State of one `service` value: its options, the `sync.Once` guard
(`onceDone` = the `once.Do` body has already run), the plugins loaded so
far, and the side-effect counters. -/
structure SvcState where
  opts : Options
  onceDone : Bool
  loaded : List String
  eff : Effects
deriving DecidableEq, Repr

/-- A fresh service as `newService` leaves it: gate not yet fired. -/
def mkState (o : Options) : SvcState := ⟨o, false, [], Effects.zero⟩

/-- Results of the collaborator `Init` calls made inside the gated body
(service.go lines 117-123). The store/registry/runtime collaborators'
`Init` methods return a Go `error`; the service code discards every one of
these results, so they are parameters that `Init` below consumes nowhere. -/
structure InitEnv where
  storeBindErr : Option Err
  authWireErr : Option Err
  registryWireErr : Option Err
  runtimeWireErr : Option Err
  storeWireErr : Option Err
deriving DecidableEq, Repr

/-- Apply a list of functional options in order, `for _, o := range opts`. -/
def applyOpts (os : List Opt) (o : Options) : Options :=
  os.foldl (fun acc f => f acc) o

/-- The body of `s.once.Do` (service.go lines 76-123): load the configured
plugins; default the app name to the server name when unset; parse command
flags; bind the store table to the (post-default) app name; cross-wire the
auth, registry, runtime and store collaborators with the outbound client.
The error results of the collaborator `Init` calls (`ienv`) are discarded,
exactly as the Go code discards them. Plugin load/flag parse failures are
`logger.Fatal` (process exit) and are outside this model, which covers the
non-fatal executions. -/
def initOnceBody (ienv : InitEnv) (plugins : List String) (s : SvcState) : SvcState :=
  let _ := ienv
  let loaded := s.loaded ++ plugins.filter (fun p => p.length ≠ 0)
  let o := s.opts
  let o := if o.appName.length = 0 then { o with appName := o.serverName } else o
  let o :=
    { o with
      storeTable := some o.appName
      authWired := true
      registryWired := true
      runtimeWired := true
      storeWired := true }
  { s with opts := o, loaded := loaded, eff := s.eff.bump }

/-- `service.Init` (service.go lines 69-125): apply every option override to
the live options, then run the gated body through `s.once.Do` — it executes
only if it has never executed before. `Init` has no return value in the
source (`func (s *service) Init(opts ...Option)`). -/
def Init (ienv : InitEnv) (plugins : List String) (opts : List Opt) (s : SvcState) : SvcState :=
  let s := { s with opts := applyOpts opts s.opts }
  if s.onceDone then s
  else initOnceBody ienv plugins { s with onceDone := true }

/-- A sequence of `Init` calls on one service, each with its own overrides. -/
def runInit (ienv : InitEnv) (plugins : List String) (calls : List (List Opt))
    (s : SvcState) : SvcState :=
  calls.foldl (fun acc c => Init ienv plugins c acc) s

/-! #### Gate lemmas -/

theorem Init_onceDone (ienv : InitEnv) (plugins : List String) (opts : List Opt)
    (s : SvcState) (h : s.onceDone = true) :
    Init ienv plugins opts s =
      { s with opts := applyOpts opts s.opts } := by
  simp [Init, h]

theorem Init_first (ienv : InitEnv) (plugins : List String) (opts : List Opt)
    (s : SvcState) (h : s.onceDone = false) :
    (Init ienv plugins opts s).eff = s.eff.bump ∧
      (Init ienv plugins opts s).onceDone = true := by
  simp [Init, h, initOnceBody]

theorem Init_preserves_onceDone (ienv : InitEnv) (plugins : List String)
    (opts : List Opt) (s : SvcState) :
    s.onceDone = true → (Init ienv plugins opts s).onceDone = true := by
  intro h
  simp [Init, h]

theorem runInit_onceDone (ienv : InitEnv) (plugins : List String)
    (calls : List (List Opt)) (s : SvcState) (h : s.onceDone = true) :
    (runInit ienv plugins calls s).eff = s.eff ∧
      (runInit ienv plugins calls s).onceDone = true := by
  induction calls generalizing s with
  | nil => exact ⟨rfl, h⟩
  | cons c rest ih =>
    have hstep : Init ienv plugins c s = { s with opts := applyOpts c s.opts } :=
      Init_onceDone ienv plugins c s h
    have : runInit ienv plugins (c :: rest) s =
        runInit ienv plugins rest (Init ienv plugins c s) := rfl
    rw [this, hstep]
    exact ih _ h

/-! ### `Run` (service.go lines 185-233) -/

/-- Observable outcome of `service.Run`. -/
structure RunOutcome where
  /-- the debug handler was registered (lines 187-192, unconditional). -/
  debugHandlerRegistered : Bool
  /-- `s.opts.Profile.Start()` was invoked (only when a profiler is set). -/
  profileStartInvoked : Bool
  /-- `s.registerAuthAccount()` was invoked (line 212). -/
  authRegisterInvoked : Bool
  /-- `s.opts.Server.Start()` (the accept call, via `s.Start()`) was invoked. -/
  serverStartInvoked : Bool
  /-- `s.Stop()` was invoked (line 232). -/
  stopInvoked : Bool
  /-- the error `Run` returns (`none` = nil). -/
  result : Option Err
deriving DecidableEq, Repr

/-- `service.Run`: register the debug handler; start the profiler when one
is configured (`profile = some r` with start result `r`), returning its
error on failure; invoke `registerAuthAccount` (outcome `authErr`),
returning its error on failure; invoke `Start`, returning its error on
failure; block on the shutdown trigger; finally invoke `Stop` and return
its result. -/
def Run (profile : Option (Option Err)) (authErr : Option Err)
    (beforeStart afterStart : List Hook) (srvStart : Option Err)
    (beforeStop afterStop : List Hook) (srvStop : Option Err) : RunOutcome :=
  match profile with
  | some (some e) => ⟨true, true, false, false, false, some e⟩
  | _ =>
    let profInvoked := profile.isSome
    match authErr with
    | some e => ⟨true, profInvoked, true, false, false, some e⟩
    | none =>
      let st := Start beforeStart afterStart srvStart
      match st.result with
      | some e => ⟨true, profInvoked, true, st.serverStartInvoked, false, some e⟩
      | none =>
        let sp := Stop beforeStop afterStop srvStop
        ⟨true, profInvoked, true, st.serverStartInvoked, true, sp.result⟩

/-- The profiler, when configured, started without error — the precondition
under which `Run` reaches the identity bootstrap. -/
def profileOk : Option (Option Err) → Bool
  | some (some _) => false
  | _ => true

/-! ### Middleware composition in `newService` (service.go lines 33-60) -/

/-- The client wrapper layers applied in `newService`. -/
inductive Layer where
  | fromService
  | traceCall
  | authClient
deriving DecidableEq, Repr

/-- The server handler wrappers registered in `newService`. -/
inductive HWrap where
  | handlerStats
  | traceHandler
  | authHandler
deriving DecidableEq, Repr

/-- A wrapped client is its stack of layers, outermost first, over the base
client; wrapping `w(c)` pushes `w` outside `c`. -/
def wrapClient (w : Layer) (c : List Layer) : List Layer := w :: c

/-- The outbound client as `newService` builds it (service.go lines 45-47):
`options.Client = wrapper.FromService(..., options.Client)`, then
`wrapper.TraceCall`, then `wrapper.AuthClient`, each taking the previous
result as its new base. -/
def newServiceClient (base : List Layer) : List Layer :=
  let c := base
  let c := wrapClient Layer.fromService c
  let c := wrapClient Layer.traceCall c
  let c := wrapClient Layer.authClient c
  c

/-- The handler wrap list as `newService` registers it (service.go lines
50-54): `server.WrapHandler(HandlerStats)`, then `TraceHandler`, then
`AuthHandler`, in that order. -/
def newServiceHandlerWraps : List HWrap :=
  [HWrap.handlerStats, HWrap.traceHandler, HWrap.authHandler]

/-- One step in the execution of a wrapped call or handler. -/
inductive CallEv (α : Type) where
  | enter (l : α)
  | inner
  | leave (l : α)
deriving DecidableEq, Repr

/-- Modelled from the spec: each client wrapper delegates to the client it
wraps (the `wrapper` package sits outside `src/`), so a call enters the
layers outermost-in, reaches the base client, and unwinds back out. -/
def clientCallTrace : List Layer → List (CallEv Layer)
  | [] => [CallEv.inner]
  | l :: rest => CallEv.enter l :: clientCallTrace rest ++ [CallEv.leave l]

/-- Modelled from the spec: the server executes its handler wrap list
outermost-to-innermost in registration order (the `server` package sits
outside `src/`), the user handler running innermost. -/
def handlerTrace : List HWrap → List (CallEv HWrap)
  | [] => [CallEv.inner]
  | w :: rest => CallEv.enter w :: handlerTrace rest ++ [CallEv.leave w]

/-! ### Role classification and `registerAuthAccount`
(service.go lines 235-267) -/

/-- `strings.HasPrefix`-style check on character lists: does `s` start with
`p`? -/
def leadsWith : List Char → List Char → Bool
  | _, [] => true
  | [], _ :: _ => false
  | c :: cs, p :: ps => c = p && leadsWith cs ps

/-- `strings.Contains` on character lists: does `sub` occur contiguously
inside `s`? -/
def containsSub : List Char → List Char → Bool
  | [], sub => sub.isEmpty
  | c :: t, sub => leadsWith (c :: t) sub || containsSub t sub

/-- `sub` occurs contiguously inside `s` (specification-level statement of
`strings.Contains`). -/
def ContainsStr (s sub : String) : Prop :=
  ∃ l r, s.data = l ++ sub.data ++ r

/-- The role classification of service.go lines 240-245: `"service"` by
default; `"api"` when the name contains `"api"`; otherwise `"web"` when the
name contains `"web"`. -/
def serviceTypeOf (name : String) : String :=
  if containsSub name.data "api".data then "api"
  else if containsSub name.data "web".data then "web"
  else "service"

theorem leadsWith_iff (p s : List Char) :
    leadsWith s p = true ↔ ∃ r, s = p ++ r := by
  induction p generalizing s with
  | nil =>
    simp [leadsWith]
  | cons q ps ih =>
    cases s with
    | nil =>
      simp [leadsWith]
    | cons c cs =>
      simp only [leadsWith, Bool.and_eq_true, decide_eq_true_eq, ih]
      constructor
      · rintro ⟨hc, r, hr⟩
        exact ⟨r, by simp [hc, hr]⟩
      · rintro ⟨r, hr⟩
        simp only [List.cons_append, List.cons.injEq] at hr
        exact ⟨hr.1, r, hr.2⟩

theorem containsSub_iff (s sub : List Char) :
    containsSub s sub = true ↔ ∃ l r, s = l ++ sub ++ r := by
  induction s with
  | nil =>
    simp only [containsSub, List.isEmpty_iff]
    constructor
    · intro h
      exact ⟨[], [], by simp [h]⟩
    · rintro ⟨l, r, hr⟩
      have := List.append_eq_nil.mp hr.symm
      have := List.append_eq_nil.mp this.1
      exact this.2
  | cons c t ih =>
    simp only [containsSub, Bool.or_eq_true, leadsWith_iff, ih]
    constructor
    · rintro (⟨r, hr⟩ | ⟨l, r, hr⟩)
      · exact ⟨[], r, by simp [hr]⟩
      · exact ⟨c :: l, r, by simp [hr]⟩
    · rintro ⟨l, r, hr⟩
      cases l with
      | nil =>
        exact Or.inl ⟨r, by simpa using hr⟩
      | cons x xs =>
        simp only [List.cons_append, List.cons.injEq] at hr
        exact Or.inr ⟨xs, r, hr.2⟩

/-- `ContainsStr` is decided by the executable `containsSub`. -/
instance (s sub : String) : Decidable (ContainsStr s sub) :=
  decidable_of_iff (containsSub s.data sub.data = true)
    (by rw [containsSub_iff]; exact Iff.rfl)

/-- The account the auth collaborator returns from `Generate`. -/
structure Account where
  id : String
  secret : String
deriving DecidableEq, Repr

/-- The arguments of one `Auth.Generate` call: account name plus the
`auth.WithRoles` / `auth.WithNamespace` options. -/
structure GenCall where
  name : String
  roles : List String
  nspace : String
deriving DecidableEq, Repr

/-- The auth collaborator at its interface boundary: its configured
namespace (`Auth.Options().Namespace`) and the behavior of its `Generate`
and `Token` methods. -/
structure AuthEnv where
  nspace : String
  generate : GenCall → Except Err Account
  token : String → String → Except Err String

/-- Observable outcome of `registerAuthAccount`. -/
structure RegOutcome where
  /-- the single `Generate` call made (always made, with these arguments). -/
  genCall : GenCall
  /-- the credentials passed to `Token` (`auth.WithCredentials(acc.ID,
  acc.Secret)`), when that call was reached. -/
  tokenCall : Option (String × String)
  /-- the token installed via `Auth.Init(auth.ClientToken(token))`, when
  that step was reached. -/
  installedToken : Option String
  /-- the error `registerAuthAccount` returns (`none` = nil). -/
  result : Option Err
deriving DecidableEq, Repr

/-- `service.registerAuthAccount` (service.go lines 235-267): classify the
role from the service name; build the account name
`fmt.Sprintf("%v-%v", name, instanceID)`; call `Generate` with that name,
`WithRoles(serviceType)` and `WithNamespace(configured namespace)`; on
failure return the error. On success call `Token` with the returned
account's id and secret; on failure return the error. On success install
the token as the auth collaborator's active credential and return nil. -/
def registerAuthAccount (name instanceId : String) (env : AuthEnv) : RegOutcome :=
  let serviceType := serviceTypeOf name
  let acctName := name ++ "-" ++ instanceId
  let call : GenCall := ⟨acctName, [serviceType], env.nspace⟩
  match env.generate call with
  | Except.error e => ⟨call, none, none, some e⟩
  | Except.ok acc =>
    match env.token acc.id acc.secret with
    | Except.error e => ⟨call, some (acc.id, acc.secret), none, some e⟩
    | Except.ok t => ⟨call, some (acc.id, acc.secret), some t, none⟩

/-! ## Claim theorems -/

/-- C2: `Start` runs the BeforeStart hooks in registration order and the
first hook that returns an error aborts `Start` immediately: `Start`
returns exactly that error, the remaining BeforeStart hooks do not run, the
server's accept call is not invoked, and no AfterStart hook runs. -/
theorem Start_failfast_abort (pre post : List Hook) (a : Nat) (e : Err)
    (afterStart : List Hook) (srv : Option Err)
    (hpre : ∀ x ∈ pre, x.2 = none) :
    (Start (pre ++ (a, some e) :: post) afterStart srv).result = some e ∧
    (Start (pre ++ (a, some e) :: post) afterStart srv).beforeRan =
      pre.map Prod.fst ++ [a] ∧
    (Start (pre ++ (a, some e) :: post) afterStart srv).serverStartInvoked = false ∧
    (Start (pre ++ (a, some e) :: post) afterStart srv).afterRan = [] := by
  simp [Start, runHooksFF_firstFail pre post a e hpre]

/-- Witness for C2: BeforeStart hooks `[A, B]` where only B fails — A runs
and succeeds, B runs, `Start` returns B's error, and neither the accept
call nor any AfterStart hook executes. -/
theorem Start_failfast_abort_witness :
    (Start [(0, none), (1, some ⟨5⟩)] [(2, none)] none).result = some ⟨5⟩ ∧
    (Start [(0, none), (1, some ⟨5⟩)] [(2, none)] none).beforeRan = [0, 1] ∧
    (Start [(0, none), (1, some ⟨5⟩)] [(2, none)] none).serverStartInvoked = false ∧
    (Start [(0, none), (1, some ⟨5⟩)] [(2, none)] none).afterRan = [] :=
  Start_failfast_abort [(0, none)] [] 1 ⟨5⟩ [(2, none)] none (by decide)

/-- C3: `Stop` always runs every BeforeStop hook in order (recording the
last failure); if the transport shutdown fails, `Stop` returns that error
immediately, skipping the AfterStop hooks and discarding any recorded
BeforeStop error; otherwise every AfterStop hook runs and `Stop` returns
the last recorded error from BeforeStop or AfterStop, or nil. -/
theorem Stop_best_effort (beforeStop afterStop : List Hook) (srv : Option Err) :
    (Stop beforeStop afterStop srv).beforeRan = beforeStop.map Prod.fst ∧
    (Stop beforeStop afterStop srv).serverStopInvoked = true ∧
    (∀ e, srv = some e →
      (Stop beforeStop afterStop srv).result = some e ∧
      (Stop beforeStop afterStop srv).afterRan = []) ∧
    (srv = none →
      (Stop beforeStop afterStop srv).afterRan = afterStop.map Prod.fst ∧
      (Stop beforeStop afterStop srv).result =
        lastError (beforeStop ++ afterStop) none) := by
  refine ⟨?_, ?_, ?_, ?_⟩
  · cases srv <;> simp [Stop, runHooksBE_spec]
  · cases srv <;> simp [Stop, runHooksBE_spec]
  · intro e he
    subst he
    simp [Stop, runHooksBE_spec]
  · intro he
    subst he
    simp [Stop, runHooksBE_spec, lastError, List.foldl_append]

/-- Witness for C3: BeforeStop hooks `[A, B]` where A fails and B succeeds —
both A and B execute and `Stop` returns A's error (shutdown and AfterStop
succeeding). -/
theorem Stop_best_effort_witness :
    (Stop [(0, some ⟨3⟩), (1, none)] [] none).beforeRan = [0, 1] ∧
    (Stop [(0, some ⟨3⟩), (1, none)] [] none).serverStopInvoked = true ∧
    (Stop [(0, some ⟨3⟩), (1, none)] [] none).afterRan = [] ∧
    (Stop [(0, some ⟨3⟩), (1, none)] [] none).result = some ⟨3⟩ := by
  have h := Stop_best_effort [(0, some ⟨3⟩), (1, none)] [] none
  have h4 := h.2.2.2 rfl
  exact ⟨h.1, h.2.1, h4.1, h4.2.trans (by decide)⟩

/-- C1: over any nonempty sequence of `Init` calls, the one-time body
(plugin loading, app-name defaulting, flag parsing, store-table binding,
collaborator cross-wiring) runs exactly once — the first call fires it and
every later call skips it (`onceDone` stays set, the counters never move
again) — while the option overrides of a call are always applied to the
live options, gate fired or not. -/
theorem Init_applies_overrides_and_gates_once (ienv : InitEnv)
    (plugins : List String) (o : Options) (calls : List (List Opt))
    (h : calls ≠ []) (c : List Opt) (s : SvcState) (hs : s.onceDone = true) :
    (runInit ienv plugins calls (mkState o)).eff = Effects.one ∧
    (runInit ienv plugins calls (mkState o)).onceDone = true ∧
    (Init ienv plugins c s).opts = applyOpts c s.opts ∧
    (Init ienv plugins c s).eff = s.eff ∧
    (Init ienv plugins c s).onceDone = true := by
  obtain ⟨c0, rest, rfl⟩ : ∃ c0 rest, calls = c0 :: rest := by
    cases calls with
    | nil => exact absurd rfl h
    | cons c0 rest => exact ⟨c0, rest, rfl⟩
  have h1 := Init_first ienv plugins c0 (mkState o) rfl
  have h2 := runInit_onceDone ienv plugins rest (Init ienv plugins c0 (mkState o)) h1.2
  have hrun : runInit ienv plugins (c0 :: rest) (mkState o) =
      runInit ienv plugins rest (Init ienv plugins c0 (mkState o)) := rfl
  have h3 := Init_onceDone ienv plugins c s hs
  refine ⟨?_, ?_, ?_, ?_, ?_⟩
  · rw [hrun, h2.1, h1.1]
    rfl
  · rw [hrun]
    exact h2.2
  · rw [h3]
  · rw [h3]
  · rw [h3]
    exact hs

/-- A failure-free environment for the collaborator `Init` calls. -/
def ienv0 : InitEnv := ⟨none, none, none, none, none⟩

/-- An environment in which the store-table bind and every cross-wiring
call fail. -/
def ienvFail : InitEnv := ⟨some ⟨7⟩, some ⟨8⟩, some ⟨9⟩, some ⟨10⟩, some ⟨11⟩⟩

/-- A fresh options value (empty app name, server named `"svc"`). -/
def o0 : Options := ⟨"", "svc", none, false, false, false, false⟩

/-- Witness for C1: two `Init` calls (the second with an explicit override)
leave every one-time counter at one, and a later call on an
already-initialized state applies its overrides without touching the
counters. -/
theorem Init_applies_overrides_and_gates_once_witness :
    (runInit ienv0 ["p1"] [[], [fun x => x]] (mkState o0)).eff = Effects.one ∧
    (runInit ienv0 ["p1"] [[], [fun x => x]] (mkState o0)).onceDone = true ∧
    (Init ienv0 ["p1"] [] (⟨o0, true, ["p1"], Effects.one⟩ : SvcState)).opts =
      applyOpts [] (⟨o0, true, ["p1"], Effects.one⟩ : SvcState).opts ∧
    (Init ienv0 ["p1"] [] (⟨o0, true, ["p1"], Effects.one⟩ : SvcState)).eff =
      (⟨o0, true, ["p1"], Effects.one⟩ : SvcState).eff ∧
    (Init ienv0 ["p1"] [] (⟨o0, true, ["p1"], Effects.one⟩ : SvcState)).onceDone = true :=
  Init_applies_overrides_and_gates_once ienv0 ["p1"] o0 [[], [fun x => x]]
    (List.cons_ne_nil _ _) [] ⟨o0, true, ["p1"], Effects.one⟩ rfl

/-- Counterexample for C8: the claim says store-table binding and
collaborator cross-wiring execute on every `Init` call, outside the gate —
after two `Init` calls their counters would then be 2. In the code they sit
inside `s.once.Do`: after two calls each counter is 1, not 2. -/
theorem Init_repeat_skips_bind_cex :
    (runInit ienv0 [] [[], []] (mkState o0)).eff.storeTableBinds = 1 ∧
    (runInit ienv0 [] [[], []] (mkState o0)).eff.storeTableBinds ≠ 2 ∧
    (runInit ienv0 [] [[], []] (mkState o0)).eff.authWires = 1 ∧
    (runInit ienv0 [] [[], []] (mkState o0)).eff.authWires ≠ 2 ∧
    (runInit ienv0 [] [[], []] (mkState o0)).eff.registryWires = 1 ∧
    (runInit ienv0 [] [[], []] (mkState o0)).eff.runtimeWires = 1 ∧
    (runInit ienv0 [] [[], []] (mkState o0)).eff.storeWires = 1 := by
  decide

/-- C8 (amended): the one-time gate covers all five steps — after any
sequence of `Init` calls the store-table bind and each cross-wiring call
have run `min (number of calls) 1` times, exactly like the plugin and flag
steps, i.e. once after the first call and never again. -/
theorem Init_gate_covers_bind_and_wiring (ienv : InitEnv)
    (plugins : List String) (o : Options) (calls : List (List Opt)) :
    (runInit ienv plugins calls (mkState o)).eff.storeTableBinds = min calls.length 1 ∧
    (runInit ienv plugins calls (mkState o)).eff.authWires = min calls.length 1 ∧
    (runInit ienv plugins calls (mkState o)).eff.registryWires = min calls.length 1 ∧
    (runInit ienv plugins calls (mkState o)).eff.runtimeWires = min calls.length 1 ∧
    (runInit ienv plugins calls (mkState o)).eff.storeWires = min calls.length 1 ∧
    (runInit ienv plugins calls (mkState o)).eff.pluginSteps = min calls.length 1 ∧
    (runInit ienv plugins calls (mkState o)).eff.flagParses = min calls.length 1 := by
  cases calls with
  | nil =>
    refine ⟨?_, ?_, ?_, ?_, ?_, ?_, ?_⟩ <;> rfl
  | cons c0 rest =>
    have h1 := Init_first ienv plugins c0 (mkState o) rfl
    have h2 := runInit_onceDone ienv plugins rest (Init ienv plugins c0 (mkState o)) h1.2
    have hrun : runInit ienv plugins (c0 :: rest) (mkState o) =
        runInit ienv plugins rest (Init ienv plugins c0 (mkState o)) := rfl
    rw [hrun, h2.1, h1.1]
    have hmin : min (rest.length + 1) 1 = 1 := by omega
    simp only [List.length_cons, hmin]
    refine ⟨?_, ?_, ?_, ?_, ?_, ?_, ?_⟩ <;> rfl

/-- Counterexample for C9: a failing store-table bind and failing
cross-wiring calls leave `Init`'s entire observable outcome identical to
the failure-free run — nothing of the failure reaches `Init`'s caller
(`Init` has no return value in the source). -/
theorem Init_discards_bind_errors_cex :
    Init ienvFail [] [] (mkState o0) = Init ienv0 [] [] (mkState o0) := rfl

/-- C9 (amended): failures of step 4 (store-table bind) and step 5
(cross-wiring) are discarded, not propagated: `Init` returns no error (its
Go signature is `func (s *service) Init(opts ...Option)`), and its outcome
is independent of the error results of those collaborator calls, which the
code ignores. -/
theorem Init_no_error_propagation (ienv ienv' : InitEnv) (plugins : List String)
    (opts : List Opt) (s : SvcState) :
    Init ienv plugins opts s = Init ienv' plugins opts s := rfl

/-- C4: `Run` performs the identity bootstrap strictly before the
transport's accept call — when account generation or token issuance fails,
`Run` returns that error and `Server.Start` is never invoked (nor `Stop`);
and whenever the accept call was invoked, the identity bootstrap had
already run and succeeded. (`hprof`: the profiler, when configured, started
without error, so `Run` reaches the bootstrap at all.) -/
theorem Run_identity_before_accept (profile : Option (Option Err))
    (authErr : Option Err) (beforeStart afterStart : List Hook)
    (srvStart : Option Err) (beforeStop afterStop : List Hook)
    (srvStop : Option Err) (hprof : profileOk profile = true) :
    (∀ e, authErr = some e →
      (Run profile authErr beforeStart afterStart srvStart beforeStop afterStop srvStop).result = some e ∧
      (Run profile authErr beforeStart afterStart srvStart beforeStop afterStop srvStop).serverStartInvoked = false ∧
      (Run profile authErr beforeStart afterStart srvStart beforeStop afterStop srvStop).stopInvoked = false ∧
      (Run profile authErr beforeStart afterStart srvStart beforeStop afterStop srvStop).authRegisterInvoked = true) ∧
    ((Run profile authErr beforeStart afterStart srvStart beforeStop afterStop srvStop).serverStartInvoked = true →
      (Run profile authErr beforeStart afterStart srvStart beforeStop afterStop srvStop).authRegisterInvoked = true ∧
      authErr = none) := by
  constructor
  · intro e he
    subst he
    cases profile with
    | none => exact ⟨rfl, rfl, rfl, rfl⟩
    | some p =>
      cases p with
      | none => exact ⟨rfl, rfl, rfl, rfl⟩
      | some e2 => simp [profileOk] at hprof
  · intro hs
    constructor
    · cases profile with
      | none =>
        cases authErr with
        | some e => rfl
        | none =>
          cases hst : (Start beforeStart afterStart srvStart).result with
          | some e => simp [Run, hst]
          | none => simp [Run, hst]
      | some p =>
        cases p with
        | none =>
          cases authErr with
          | some e => rfl
          | none =>
            cases hst : (Start beforeStart afterStart srvStart).result with
            | some e => simp [Run, hst]
            | none => simp [Run, hst]
        | some e2 => simp [profileOk] at hprof
    · cases authErr with
      | none => rfl
      | some e =>
        exfalso
        cases profile with
        | none => simp [Run] at hs
        | some p =>
          cases p with
          | none => simp [Run] at hs
          | some e2 => simp [profileOk] at hprof

/-- Witness for C4: no profiler, account generation fails with error 2 —
`Run` returns that error, the accept call and `Stop` never happen, and the
bootstrap was invoked. -/
theorem Run_identity_before_accept_witness :
    (Run none (some ⟨2⟩) [] [] none [] [] none).result = some ⟨2⟩ ∧
    (Run none (some ⟨2⟩) [] [] none [] [] none).serverStartInvoked = false ∧
    (Run none (some ⟨2⟩) [] [] none [] [] none).stopInvoked = false ∧
    (Run none (some ⟨2⟩) [] [] none [] [] none).authRegisterInvoked = true :=
  (Run_identity_before_accept none (some ⟨2⟩) [] [] none [] [] none rfl).1 ⟨2⟩ rfl

/-- C5: `newService` wraps the outbound client bottom-up as base →
From-Service identity header → trace span → auth credential, so auth is
outermost and executes first on the outbound path; and it registers the
inbound handler wrap list as stats, then trace, then auth verification,
executed outermost-to-innermost, so stats has the widest scope and auth
verification sits immediately before the user handler. -/
theorem newService_middleware_order (base : List Layer) :
    newServiceClient base =
      Layer.authClient :: Layer.traceCall :: Layer.fromService :: base ∧
    clientCallTrace (newServiceClient []) =
      [CallEv.enter Layer.authClient, CallEv.enter Layer.traceCall,
        CallEv.enter Layer.fromService, CallEv.inner,
        CallEv.leave Layer.fromService, CallEv.leave Layer.traceCall,
        CallEv.leave Layer.authClient] ∧
    newServiceHandlerWraps =
      [HWrap.handlerStats, HWrap.traceHandler, HWrap.authHandler] ∧
    handlerTrace newServiceHandlerWraps =
      [CallEv.enter HWrap.handlerStats, CallEv.enter HWrap.traceHandler,
        CallEv.enter HWrap.authHandler, CallEv.inner,
        CallEv.leave HWrap.authHandler, CallEv.leave HWrap.traceHandler,
        CallEv.leave HWrap.handlerStats] :=
  ⟨rfl, rfl, rfl, rfl⟩

/-- C6: role classification is by substring inspection of the service name —
any name containing `"api"` classifies as `"api"`, any other name
containing `"web"` classifies as `"web"`, and any remaining name as
`"service"`; concretely `"foo-api"` ↦ api, `"foo-web"` ↦ web, `"foo"` ↦
service, and `"webfoo"` ↦ web (substring, not token, matching). -/
theorem serviceTypeOf_substring_classification (n1 n2 n3 : String)
    (h1 : ContainsStr n1 "api")
    (h2a : ¬ ContainsStr n2 "api") (h2b : ContainsStr n2 "web")
    (h3a : ¬ ContainsStr n3 "api") (h3b : ¬ ContainsStr n3 "web") :
    serviceTypeOf n1 = "api" ∧ serviceTypeOf n2 = "web" ∧
    serviceTypeOf n3 = "service" ∧
    serviceTypeOf "foo-api" = "api" ∧ serviceTypeOf "foo-web" = "web" ∧
    serviceTypeOf "foo" = "service" ∧ serviceTypeOf "webfoo" = "web" := by
  have b1 : containsSub n1.data ("api".data) = true := (containsSub_iff _ _).mpr h1
  have b2a : containsSub n2.data ("api".data) = false :=
    Bool.eq_false_iff.mpr fun hb => h2a ((containsSub_iff _ _).mp hb)
  have b2b : containsSub n2.data ("web".data) = true := (containsSub_iff _ _).mpr h2b
  have b3a : containsSub n3.data ("api".data) = false :=
    Bool.eq_false_iff.mpr fun hb => h3a ((containsSub_iff _ _).mp hb)
  have b3b : containsSub n3.data ("web".data) = false :=
    Bool.eq_false_iff.mpr fun hb => h3b ((containsSub_iff _ _).mp hb)
  refine ⟨?_, ?_, ?_, by decide, by decide, by decide, by decide⟩
  · simp [serviceTypeOf, b1]
  · simp [serviceTypeOf, b2a, b2b]
  · simp [serviceTypeOf, b3a, b3b]

/-- Witness for C6, instantiated at `"foo-api"`, `"webfoo"` (substring
match) and `"orders"`. -/
theorem serviceTypeOf_substring_classification_witness :
    serviceTypeOf "foo-api" = "api" ∧ serviceTypeOf "webfoo" = "web" ∧
    serviceTypeOf "orders" = "service" ∧
    serviceTypeOf "foo-api" = "api" ∧ serviceTypeOf "foo-web" = "web" ∧
    serviceTypeOf "foo" = "service" ∧ serviceTypeOf "webfoo" = "web" :=
  serviceTypeOf_substring_classification "foo-api" "webfoo" "orders"
    (by decide) (by decide) (by decide) (by decide) (by decide)

/-- C10: the `"api"` check has precedence over the `"web"` check — a name
containing both substrings classifies as `"api"`, never `"web"`. -/
theorem serviceTypeOf_api_precedence (name : String)
    (hapi : ContainsStr name "api") (_hweb : ContainsStr name "web") :
    serviceTypeOf name = "api" ∧ serviceTypeOf name ≠ "web" := by
  have b1 : containsSub name.data ("api".data) = true := (containsSub_iff _ _).mpr hapi
  have hval : serviceTypeOf name = "api" := by simp [serviceTypeOf, b1]
  exact ⟨hval, by rw [hval]; decide⟩

/-- Witness for C10 at `"api-web-gateway"`, which contains both `"api"`
and `"web"`. -/
theorem serviceTypeOf_api_precedence_witness :
    serviceTypeOf "api-web-gateway" = "api" ∧
    serviceTypeOf "api-web-gateway" ≠ "web" :=
  serviceTypeOf_api_precedence "api-web-gateway" (by decide) (by decide)

/-- C7: `registerAuthAccount` calls `Generate` with account name
`"{name}-{instanceID}"`, the singleton role classification and the auth
collaborator's configured namespace; on success it requests a token bound
to the returned account's id and secret; on success it installs that token
as the active credential and returns nil; each failure is returned as-is. -/
theorem registerAuthAccount_algorithm (name instanceId : String) (env : AuthEnv) :
    (registerAuthAccount name instanceId env).genCall =
      ⟨name ++ "-" ++ instanceId, [serviceTypeOf name], env.nspace⟩ ∧
    (∀ e, env.generate ⟨name ++ "-" ++ instanceId, [serviceTypeOf name], env.nspace⟩ =
        Except.error e →
      (registerAuthAccount name instanceId env).result = some e ∧
      (registerAuthAccount name instanceId env).tokenCall = none ∧
      (registerAuthAccount name instanceId env).installedToken = none) ∧
    (∀ acc, env.generate ⟨name ++ "-" ++ instanceId, [serviceTypeOf name], env.nspace⟩ =
        Except.ok acc →
      (registerAuthAccount name instanceId env).tokenCall = some (acc.id, acc.secret) ∧
      (∀ e, env.token acc.id acc.secret = Except.error e →
        (registerAuthAccount name instanceId env).result = some e ∧
        (registerAuthAccount name instanceId env).installedToken = none) ∧
      (∀ t, env.token acc.id acc.secret = Except.ok t →
        (registerAuthAccount name instanceId env).installedToken = some t ∧
        (registerAuthAccount name instanceId env).result = none)) := by
  refine ⟨?_, ?_, ?_⟩
  · cases hg : env.generate ⟨name ++ "-" ++ instanceId, [serviceTypeOf name], env.nspace⟩ with
    | error e => simp [registerAuthAccount, hg]
    | ok acc =>
      cases ht : env.token acc.id acc.secret with
      | error e => simp [registerAuthAccount, hg, ht]
      | ok t => simp [registerAuthAccount, hg, ht]
  · intro e hg
    simp [registerAuthAccount, hg]
  · intro acc hg
    refine ⟨?_, ?_, ?_⟩
    · cases ht : env.token acc.id acc.secret with
      | error e => simp [registerAuthAccount, hg, ht]
      | ok t => simp [registerAuthAccount, hg, ht]
    · intro e ht
      simp [registerAuthAccount, hg, ht]
    · intro t ht
      simp [registerAuthAccount, hg, ht]

/-- An auth collaborator double: namespace `"ns"`, generation succeeds with
a fixed account, token issuance succeeds with a fixed token. -/
def authEnv0 : AuthEnv :=
  ⟨"ns", fun _ => Except.ok ⟨"id1", "sec1"⟩, fun _ _ => Except.ok "tok1"⟩

/-- Witness for C7: service `"orders"`, instance `"i1"`, namespace `"ns"` —
account name `"orders-i1"` with role `"service"`, token bound to the
returned credentials and installed. -/
theorem registerAuthAccount_algorithm_witness :
    (registerAuthAccount "orders" "i1" authEnv0).genCall =
      ⟨"orders-i1", ["service"], "ns"⟩ ∧
    (registerAuthAccount "orders" "i1" authEnv0).tokenCall =
      some ("id1", "sec1") ∧
    (registerAuthAccount "orders" "i1" authEnv0).installedToken = some "tok1" ∧
    (registerAuthAccount "orders" "i1" authEnv0).result = none := by
  have h := registerAuthAccount_algorithm "orders" "i1" authEnv0
  have h3 := h.2.2 ⟨"id1", "sec1"⟩ rfl
  have h4 := h3.2.2 "tok1" rfl
  refine ⟨?_, h3.1, h4.1, h4.2⟩
  rw [h.1]
  decide

end GoMicro
